import Mathlib

set_option linter.unusedVariables false

/-!
Shallow embedding of the SchlossGame server core (server.js): the rooms
table, game sessions, turn timers and the socket event handlers.  The
socket.io transport is modelled as a list of emitted notifications; the
setTimeout/clearTimeout machinery is modelled by a table of scheduled,
not-yet-fired, not-canceled callbacks keyed by fresh handles.
-/

/-- Per-participant state, as stored in room.players[socketId]. -/
structure PlayerState where
  name : String
  secret : String
  ready : Bool
deriving DecidableEq

/-- One room object, as stored in rooms[roomId]. -/
structure Room where
  players : List (String × PlayerState)
  codeLength : Nat
  started : Bool
  turnOrder : List String
  winner : Option String
  turnTimer : Option Nat
deriving DecidableEq

/-- Session phase, derived from started/winner as in the spec's data model:
Finished once a winner is recorded, Active while started with no winner,
Lobby before the game starts. -/
inductive Phase where
  | lobby
  | active
  | finished
deriving DecidableEq

def Room.phase (r : Room) : Phase :=
  if r.winner.isSome then Phase.finished
  else if r.started then Phase.active
  else Phase.lobby

def phaseIdx : Phase → Nat
  | Phase.lobby => 0
  | Phase.active => 1
  | Phase.finished => 2

/-- Outbound socket.io notifications (broadcasts and unicasts). -/
inductive Emit where
  | roomCreated (toSocket roomId : String) (codeLength : Nat)
  | errorMessage (toSocket message : String)
  | roomJoined (roomId : String) (codeLength : Nat) (players : List (String × String))
  | playerReady (roomId playerId name : String) (allReady : Bool)
  | gameStarted (roomId currentTurn : String)
  | guessResult (roomId fromId value : String) (correct : Nat)
  | gameOver (roomId winnerId winnerName loserId loserName : String)
  | turnChanged (roomId currentTurn : String)
  | turnSkipped (roomId fromId next : String)
  | turnTimeout (roomId expiredPlayerId nextPlayerId : String)
  | opponentLeft (roomId playerId : String)
deriving DecidableEq

/-- Whole-process state: the rooms table, the scheduled-and-still-pending
setTimeout callbacks as (handle, roomId) pairs, and a counter producing
fresh handles. -/
structure ServerState where
  rooms : List (String × Room)
  pendingTimers : List (Nat × String)
  nextTimer : Nat
deriving DecidableEq

/-- Handler outcome: next state, notifications emitted, and whether the
handler threw (a TypeError aborts the handler; state and emits are those
produced before the throw). -/
structure Result where
  state : ServerState
  emits : List Emit
  crashed : Bool
deriving DecidableEq

/-- JS object lookup obj[k] on a string-keyed object; undefined is none. -/
def lookupAssoc {α : Type} : List (String × α) → String → Option α
  | [], _ => none
  | (k, v) :: rest, k' => if k = k' then some v else lookupAssoc rest k'

/-- JS object assignment obj[k] = v: replaces an existing key in place,
otherwise appends (JS string keys keep insertion order). -/
def setAssoc {α : Type} : List (String × α) → String → α → List (String × α)
  | [], k, v => [(k, v)]
  | (k0, v0) :: rest, k, v =>
      if k0 = k then (k, v) :: rest else (k0, v0) :: setAssoc rest k v

/-- Array.prototype.indexOf: first index of the element, or -1. -/
def jsIndexOf : List String → String → Int
  | [], _ => -1
  | x :: xs, y =>
      if x = y then 0
      else
        let r := jsIndexOf xs y
        if r = -1 then -1 else r + 1

/-- JS string indexing str[i]: the character, or undefined (none). -/
def jsCharAt (s : String) (i : Nat) : Option Char :=
  s.data.get? i

/-- The test of the regular expression matching one or more digits,
anchored at both ends, as used on secrets and guesses. -/
def isDigits (s : String) : Bool :=
  s.length != 0 && s.data.all (fun c => c.isDigit)

/-- The scoring loop of the guess handler: for i in [0, n), count the
positions where value[i] === opponentSecret[i] (JS: two out-of-range
accesses compare as undefined === undefined, which holds). -/
def scoreLoop (value secret : String) : Nat → Nat
  | 0 => 0
  | n + 1 => scoreLoop value secret n + (if jsCharAt value n = jsCharAt secret n then 1 else 0)

/-- Specification-side scoring: the number of positions i in [0, n) with
value[i] equal to secret[i], written independently of the handler's loop. -/
def specScore (n : Nat) (value secret : String) : Nat :=
  (List.range n).countP (fun i => decide (jsCharAt value i = jsCharAt secret i))

/-- The live (scheduled, unfired, uncanceled) timers of one room. -/
def pendingFor (s : ServerState) (roomId : String) : List (Nat × String) :=
  s.pendingTimers.filter (fun e => e.2 == roomId)

/-- clearTurnTimer(roomId): cancel the room's pending callback, if any,
and null the stored handle. -/
def clearTurnTimer (roomId : String) (s : ServerState) : ServerState :=
  match lookupAssoc s.rooms roomId with
  | none => s
  | some r =>
      match r.turnTimer with
      | none => s
      | some h =>
          { rooms := setAssoc s.rooms roomId { r with turnTimer := none },
            pendingTimers := s.pendingTimers.filter (fun e => e.1 != h),
            nextTimer := s.nextTimer }

/-- startTurnTimer(roomId): stop the previously stored timer if present,
then schedule a fresh callback and store its handle. -/
def startTurnTimer (roomId : String) (s : ServerState) : ServerState :=
  match lookupAssoc s.rooms roomId with
  | none => s
  | some r =>
      let pend :=
        match r.turnTimer with
        | some h => s.pendingTimers.filter (fun e => e.1 != h)
        | none => s.pendingTimers
      let h' := s.nextTimer
      { rooms := setAssoc s.rooms roomId { r with turnTimer := some h' },
        pendingTimers := pend ++ [(h', roomId)],
        nextTimer := h' + 1 }

/-- createRoom handler.  The room id is produced by the external
IdGenerator; codeLength || 3 maps a falsy payload (absent or 0) to 3. -/
def createRoom (s : ServerState) (socketId name : String) (codeLength : Option Nat)
    (roomId : String) : Result :=
  let cl := match codeLength with
    | some n => if n = 0 then 3 else n
    | none => 3
  let room : Room :=
    { players := [(socketId, { name := name, secret := "", ready := false })],
      codeLength := cl, started := false, turnOrder := [], winner := none,
      turnTimer := none }
  { state := { s with rooms := setAssoc s.rooms roomId room },
    emits := [Emit.roomCreated socketId roomId cl],
    crashed := false }

/-- joinRoom handler. -/
def joinRoom (s : ServerState) (socketId name roomId : String) : Result :=
  match lookupAssoc s.rooms roomId with
  | none => { state := s, emits := [Emit.errorMessage socketId "Raum nicht gefunden."], crashed := false }
  | some r =>
      if r.players.length ≥ 2 then
        { state := s, emits := [Emit.errorMessage socketId "Raum ist voll."], crashed := false }
      else
        let players' := setAssoc r.players socketId { name := name, secret := "", ready := false }
        let r1 := { r with players := players' }
        { state := { s with rooms := setAssoc s.rooms roomId r1 },
          emits := [Emit.roomJoined roomId r1.codeLength (players'.map (fun q => (q.1, q.2.name)))],
          crashed := false }

/-- setSecret handler.  The flip argument is the Math.random() < 0.5
coin used to pick the starting turn order. -/
def setSecret (s : ServerState) (socketId roomId secret : String) (flip : Bool) : Result :=
  match lookupAssoc s.rooms roomId with
  | none => { state := s, emits := [], crashed := false }
  | some r =>
      match lookupAssoc r.players socketId with
      | none => { state := s, emits := [], crashed := false }
      | some p =>
          if secret.length != r.codeLength || !(isDigits secret) then
            { state := s, emits := [], crashed := false }
          else
            let p' := { p with secret := secret, ready := true }
            let players' := setAssoc r.players socketId p'
            let allReady := players'.length == 2 && players'.all (fun q => q.2.ready)
            let r1 := { r with players := players' }
            let e1 := Emit.playerReady roomId socketId p'.name allReady
            if allReady && !r1.started then
              match players'.map Prod.fst with
              | id0 :: id1 :: _ =>
                  let pair := if flip then (id0, id1) else (id1, id0)
                  let r2 := { r1 with started := true, turnOrder := [pair.1, pair.2] }
                  let s1 := { s with rooms := setAssoc s.rooms roomId r2 }
                  let s2 := startTurnTimer roomId s1
                  { state := s2, emits := [e1, Emit.gameStarted roomId pair.1], crashed := false }
              | _ =>
                  -- dead branch: allReady forces players' to have exactly two entries
                  { state := { s with rooms := setAssoc s.rooms roomId r1 }, emits := [e1], crashed := false }
            else
              { state := { s with rooms := setAssoc s.rooms roomId r1 }, emits := [e1], crashed := false }

/-- guess handler.  Accessing .secret or .name on an undefined player
(JS TypeError) aborts the handler with crashed = true; mutations and
emits performed before the throw are kept. -/
def guess (s : ServerState) (socketId roomId value : String) : Result :=
  match lookupAssoc s.rooms roomId with
  | none => { state := s, emits := [], crashed := false }
  | some r =>
      if !r.started then { state := s, emits := [], crashed := false }
      else if !(isDigits value) || value.length != r.codeLength then
        { state := s, emits := [], crashed := false }
      else if jsIndexOf r.turnOrder socketId ≠ 0 then
        { state := s, emits := [Emit.errorMessage socketId "Du bist nicht am Zug."], crashed := false }
      else
        match r.turnOrder.get? 1 with
        | none =>
            -- room.players[undefined] is undefined; opponent.secret throws
            { state := s, emits := [], crashed := true }
        | some opponentId =>
            match lookupAssoc r.players opponentId with
            | none =>
                -- opponent is undefined; opponent.secret throws
                { state := s, emits := [], crashed := true }
            | some opponent =>
                let correct := scoreLoop value opponent.secret r.codeLength
                let e1 := Emit.guessResult roomId socketId value correct
                if correct = r.codeLength then
                  let r1 := { r with winner := some socketId }
                  let s1 := { s with rooms := setAssoc s.rooms roomId r1 }
                  match lookupAssoc r.players socketId with
                  | none =>
                      -- room.players[socket.id].name throws after winner was written
                      { state := s1, emits := [e1], crashed := true }
                  | some me =>
                      let e2 := Emit.gameOver roomId socketId me.name opponentId opponent.name
                      let s2 := clearTurnTimer roomId s1
                      { state := s2, emits := [e1, e2], crashed := false }
                else
                  let r1 := { r with turnOrder := [opponentId, socketId] }
                  let s1 := { s with rooms := setAssoc s.rooms roomId r1 }
                  let s2 := startTurnTimer roomId s1
                  { state := s2, emits := [e1, Emit.turnChanged roomId opponentId], crashed := false }

/-- skipTurn handler.  The !room.turnOrder guard of the source never
fires (an array is always truthy), so only the head test matters. -/
def skipTurn (s : ServerState) (socketId roomId : String) : Result :=
  match lookupAssoc s.rooms roomId with
  | none => { state := s, emits := [], crashed := false }
  | some r =>
      if !r.started then { state := s, emits := [], crashed := false }
      else if r.turnOrder.get? 0 ≠ some socketId then
        { state := s, emits := [], crashed := false }
      else
        match r.turnOrder with
        | current :: next :: _ =>
            let r1 := { r with turnOrder := [next, current] }
            { state := { s with rooms := setAssoc s.rooms roomId r1 },
              emits := [Emit.turnSkipped roomId current next],
              crashed := false }
        | _ =>
            -- dead branch: a started room always carries a two-element turnOrder
            { state := s, emits := [], crashed := false }

/-- The setTimeout callback scheduled by startTurnTimer, firing a pending
handle: remove it from the pending table, then run the body guarded by
room existence, started and winner. -/
def fireTimer (s : ServerState) (h : Nat) : Result :=
  match s.pendingTimers.find? (fun e => e.1 == h) with
  | none => { state := s, emits := [], crashed := false }
  | some hr =>
      let s1 : ServerState := { s with pendingTimers := s.pendingTimers.filter (fun e => e.1 != h) }
      let roomId := hr.2
      match lookupAssoc s1.rooms roomId with
      | none => { state := s1, emits := [], crashed := false }
      | some r =>
          if !r.started || r.winner.isSome then { state := s1, emits := [], crashed := false }
          else
            match r.turnOrder with
            | expired :: next :: _ =>
                let r1 := { r with turnOrder := [next, expired] }
                let s2 := { s1 with rooms := setAssoc s1.rooms roomId r1 }
                let s3 := startTurnTimer roomId s2
                { state := s3, emits := [Emit.turnTimeout roomId expired next], crashed := false }
            | _ =>
                -- dead branch: a pending timer's room is started with a two-element turnOrder
                { state := s1, emits := [], crashed := false }

/-- disconnect handler body: walk the rooms table in insertion order;
in each room holding the socket, delete the player, emit opponentLeft,
and when the room became empty cancel its timer and delete the room.
Returns the surviving rooms, the emits and the canceled timer handles. -/
def disconnectRooms (socketId : String) :
    List (String × Room) → List (String × Room) × List Emit × List Nat
  | [] => ([], [], [])
  | (rid, r) :: rest =>
      let rec' := disconnectRooms socketId rest
      match lookupAssoc r.players socketId with
      | none => ((rid, r) :: rec'.1, rec'.2.1, rec'.2.2)
      | some _ =>
          let players' := r.players.filter (fun q => q.1 != socketId)
          if players'.length = 0 then
            (rec'.1, Emit.opponentLeft rid socketId :: rec'.2.1,
              (match r.turnTimer with | some h => [h] | none => []) ++ rec'.2.2)
          else
            ((rid, { r with players := players' }) :: rec'.1,
              Emit.opponentLeft rid socketId :: rec'.2.1, rec'.2.2)

/-- disconnect handler. -/
def disconnect (s : ServerState) (socketId : String) : Result :=
  let out := disconnectRooms socketId s.rooms
  { state :=
      { rooms := out.1,
        pendingTimers := s.pendingTimers.filter (fun e => !(out.2.2.contains e.1)),
        nextTimer := s.nextTimer },
    emits := out.2.1,
    crashed := false }

/-- Inbound events: the five client actions, timer expiry and disconnect. -/
inductive Event where
  | createRoom (socketId name : String) (codeLength : Option Nat) (roomId : String)
  | joinRoom (socketId name roomId : String)
  | setSecret (socketId roomId secret : String) (flip : Bool)
  | guess (socketId roomId value : String)
  | skipTurn (socketId roomId : String)
  | timerFire (h : Nat)
  | disconnect (socketId : String)

def stepEv (s : ServerState) : Event → Result
  | Event.createRoom sid n cl rid => createRoom s sid n cl rid
  | Event.joinRoom sid n rid => joinRoom s sid n rid
  | Event.setSecret sid rid sec flip => setSecret s sid rid sec flip
  | Event.guess sid rid v => guess s sid rid v
  | Event.skipTurn sid rid => skipTurn s sid rid
  | Event.timerFire h => fireTimer s h
  | Event.disconnect sid => disconnect s sid

/-- Environment guarantees: the external IdGenerator hands createRoom a
room id not already registered.  All other events are unconstrained. -/
def EventOK (s : ServerState) : Event → Prop
  | Event.createRoom _ _ _ rid => lookupAssoc s.rooms rid = none
  | _ => True

def initState : ServerState := { rooms := [], pendingTimers := [], nextTimer := 0 }

/-- States the server can be in: the empty table, extended by any
non-crashing event honouring the environment guarantees. -/
inductive Reachable : ServerState → Prop where
  | init : Reachable initState
  | step {s : ServerState} {e : Event} : Reachable s → EventOK s e →
      (stepEv s e).crashed = false → Reachable (stepEv s e).state

/-- The room stored at a given id, defaulting to an inert record; used to
state closed facts about concrete states. -/
def someRoom (s : ServerState) (rid : String) : Room :=
  (lookupAssoc s.rooms rid).getD
    { players := [], codeLength := 0, started := false, turnOrder := [], winner := none, turnTimer := none }

/-- A player of a room, defaulting to an inert record; used to state
closed facts about concrete states. -/
def somePlayer (r : Room) (sid : String) : PlayerState :=
  (lookupAssoc r.players sid).getD { name := "", secret := "", ready := false }

/-!
A concrete two-player game used throughout: Alice (socket "AAA") creates
room "R1" with codeLength 3 and secret "111"; Bob (socket "BBB") joins
with secret "456"; the start coin gives Alice the first turn.
-/

def sCreate : ServerState := (createRoom initState "AAA" "Alice" (some 3) "R1").state

def sJoin : ServerState := (joinRoom sCreate "BBB" "Bob" "R1").state

def sReadyA : ServerState := (setSecret sJoin "AAA" "R1" "111" true).state

def sActive : ServerState := (setSecret sReadyA "BBB" "R1" "456" true).state

/-- Bob disconnects from the running game. -/
def sDropB : ServerState := (disconnect sActive "BBB").state

/-- Alice guesses Bob's secret exactly and wins. -/
def sWon : ServerState := (guess sActive "AAA" "R1" "456").state

/-- After winning, Alice sends a skipTurn. -/
def sSkipAfterWin : ServerState := (skipTurn sWon "AAA" "R1").state

/-- After Alice's post-win skip, Bob guesses Alice's secret exactly. -/
def sRewon : ServerState := (guess sSkipAfterWin "BBB" "R1" "111").state

/-- After winning, Alice sends another, wrong guess. -/
def sPostWinGuess : ServerState := (guess sWon "AAA" "R1" "455").state

theorem reach_sActive : Reachable sActive := by
  have h1 : Reachable sCreate :=
    Reachable.step (s := initState) (e := Event.createRoom "AAA" "Alice" (some 3) "R1")
      Reachable.init rfl rfl
  have h2 : Reachable sJoin :=
    Reachable.step (s := sCreate) (e := Event.joinRoom "BBB" "Bob" "R1") h1 trivial rfl
  have h3 : Reachable sReadyA :=
    Reachable.step (s := sJoin) (e := Event.setSecret "AAA" "R1" "111" true) h2 trivial rfl
  exact Reachable.step (s := sReadyA) (e := Event.setSecret "BBB" "R1" "456" true) h3 trivial rfl

theorem reach_sDropB : Reachable sDropB :=
  Reachable.step (s := sActive) (e := Event.disconnect "BBB") reach_sActive trivial rfl

theorem reach_sWon : Reachable sWon :=
  Reachable.step (s := sActive) (e := Event.guess "AAA" "R1" "456") reach_sActive trivial rfl

theorem reach_sSkipAfterWin : Reachable sSkipAfterWin :=
  Reachable.step (s := sWon) (e := Event.skipTurn "AAA" "R1") reach_sWon trivial rfl

theorem reach_sRewon : Reachable sRewon :=
  Reachable.step (s := sSkipAfterWin) (e := Event.guess "BBB" "R1" "111") reach_sSkipAfterWin trivial rfl

theorem reach_sPostWinGuess : Reachable sPostWinGuess :=
  Reachable.step (s := sWon) (e := Event.guess "AAA" "R1" "455") reach_sWon trivial rfl

/-- C1: the winner field is not write-once.  In the reachable state sWon
Alice is recorded as the winner, yet after her post-win skip Bob's exact
guess is processed again, reassigns winner to Bob and broadcasts a second
gameOver naming Bob: the winner changes after the transition to Finished. -/
theorem winner_reassigned_after_finish :
    Reachable sWon ∧ (someRoom sWon "R1").winner = some "AAA" ∧
    Reachable sRewon ∧ (someRoom sRewon "R1").winner = some "BBB" ∧
    (guess sSkipAfterWin "BBB" "R1" "111").emits =
      [Emit.guessResult "R1" "BBB" "111" 3, Emit.gameOver "R1" "BBB" "Bob" "AAA" "Alice"] :=
  ⟨reach_sWon, by decide, reach_sRewon, by decide, by decide⟩

/-- C2: an inbound guess can throw.  In the reachable state sDropB (a
two-player Active session from which the waiting player disconnected) a
well-formed guess by the remaining active player reads .secret of the
undefined opponent entry: the handler aborts with a TypeError. -/
theorem guess_crashes_after_opponent_disconnect :
    Reachable sDropB ∧ (someRoom sDropB "R1").phase = Phase.active ∧
    (guess sDropB "AAA" "R1" "123").crashed = true :=
  ⟨reach_sDropB, by decide, by decide⟩

/-- C3: a guess against a Finished session is not ignored.  In the
reachable Finished state sWon, a further wrong guess by the recorded
winner broadcasts guessResult and turnChanged and mutates the session,
and a guess by the loser is answered with the NotYourTurn error. -/
theorem finished_guess_processed :
    Reachable sWon ∧ (someRoom sWon "R1").phase = Phase.finished ∧
    (guess sWon "AAA" "R1" "455").emits =
      [Emit.guessResult "R1" "AAA" "455" 2, Emit.turnChanged "R1" "BBB"] ∧
    (guess sWon "AAA" "R1" "455").state ≠ sWon ∧
    (guess sWon "BBB" "R1" "999").emits = [Emit.errorMessage "BBB" "Du bist nicht am Zug."] :=
  ⟨reach_sWon, by decide, by decide, by decide, by decide⟩

/-- C4: the timer-cardinality invariant fails in Finished sessions.  The
winning guess does cancel the timer (sWon has none pending), but the
recorded winner's further wrong guess reschedules it: the reachable
Finished state sPostWinGuess holds one live timer. -/
theorem timer_restarted_in_finished :
    Reachable sPostWinGuess ∧ (pendingFor sWon "R1").length = 0 ∧
    (someRoom sPostWinGuess "R1").phase = Phase.finished ∧
    (pendingFor sPostWinGuess "R1").length = 1 :=
  ⟨reach_sPostWinGuess, by decide, by decide, by decide⟩

/-- C6: the turn-order membership invariant fails on disconnect.  In the
reachable state sDropB the session is still Active, its roster is down to
Alice, but turnOrder still names the departed Bob: turnOrder is not a
permutation of the current player ids. -/
theorem turnOrder_stale_after_disconnect :
    Reachable sDropB ∧ (someRoom sDropB "R1").phase = Phase.active ∧
    (someRoom sDropB "R1").players.map Prod.fst = ["AAA"] ∧
    (someRoom sDropB "R1").turnOrder = ["AAA", "BBB"] ∧
    ¬ (someRoom sDropB "R1").turnOrder.Perm ((someRoom sDropB "R1").players.map Prod.fst) :=
  ⟨reach_sDropB, by decide, by decide, by decide, by decide⟩

/-- C5 counterexample: an out-of-phase setSecret is not silently dropped.
In the reachable Active state sActive, Alice's setSecret is processed:
her committed secret changes from "111" to "789" and playerReady is
broadcast, contradicting the silent-drop contract. -/
theorem setSecret_active_processed :
    Reachable sActive ∧ (someRoom sActive "R1").phase = Phase.active ∧
    (somePlayer (someRoom sActive "R1") "AAA").secret = "111" ∧
    (setSecret sActive "AAA" "R1" "789" true).emits =
      [Emit.playerReady "R1" "AAA" "Alice" true] ∧
    (somePlayer (someRoom (setSecret sActive "AAA" "R1" "789" true).state "R1") "AAA").secret = "789" :=
  ⟨reach_sActive, by decide, by decide, by decide, by decide⟩

/-- C7 counterexample: for secret "456" the guess "654" does not score 0.
The middle digit matches in position, so the broadcast score is 1 — as
the positionwise count prescribes, refuting the claimed concrete value. -/
theorem guess_654_scores_one :
    Reachable sActive ∧ (somePlayer (someRoom sActive "R1") "BBB").secret = "456" ∧
    (guess sActive "AAA" "R1" "654").emits.head? =
      some (Emit.guessResult "R1" "AAA" "654" 1) ∧
    specScore 3 "654" "456" = 1 ∧ (1 : Nat) ≠ 0 :=
  ⟨reach_sActive, by decide, by decide, by decide, by decide⟩

theorem lookup_set_self {α : Type} (l : List (String × α)) (k : String) (v : α) :
    lookupAssoc (setAssoc l k v) k = some v := by
  induction l with
  | nil => simp [setAssoc, lookupAssoc]
  | cons hd tl ih =>
      obtain ⟨k0, v0⟩ := hd
      by_cases h : k0 = k
      · subst h
        simp [setAssoc, lookupAssoc]
      · simp [setAssoc, lookupAssoc, h, ih]

theorem lookup_set_ne {α : Type} (l : List (String × α)) (k k' : String) (v : α)
    (h : k ≠ k') : lookupAssoc (setAssoc l k v) k' = lookupAssoc l k' := by
  induction l with
  | nil => simp [setAssoc, lookupAssoc, h]
  | cons hd tl ih =>
      obtain ⟨k0, v0⟩ := hd
      by_cases h0 : k0 = k
      · subst h0
        simp [setAssoc, lookupAssoc, h]
      · simp [setAssoc, lookupAssoc, h0, ih]

theorem mem_of_lookup_some {α : Type} {l : List (String × α)} {k : String} {v : α}
    (h : lookupAssoc l k = some v) : k ∈ l.map Prod.fst := by
  induction l with
  | nil => simp [lookupAssoc] at h
  | cons hd tl ih =>
      obtain ⟨k0, v0⟩ := hd
      by_cases h0 : k0 = k
      · subst h0; simp
      · simp [lookupAssoc, h0] at h
        simp [ih h]

theorem lookup_none_of_not_mem {α : Type} {l : List (String × α)} {k : String}
    (h : k ∉ l.map Prod.fst) : lookupAssoc l k = none := by
  cases hl : lookupAssoc l k with
  | none => rfl
  | some v => exact absurd (mem_of_lookup_some hl) h

/-- The handler's scoring loop computes the specification count. -/
theorem scoreLoop_eq_specScore (value secret : String) (n : Nat) :
    scoreLoop value secret n = specScore n value secret := by
  induction n with
  | zero => simp [scoreLoop, specScore]
  | succ n ih =>
      simp only [scoreLoop, specScore, List.range_succ, List.countP_append, ih]
      simp [List.countP_cons]

/-- C9: skipTurn by the active player of an Active session swaps the
turn order and broadcasts the swap, and changes nothing else: the room
keeps its players, secrets, codeLength, winner, started flag and stored
timer handle, and the pending-timer table and handle counter are
untouched (the timer is neither canceled nor rescheduled). -/
theorem skipTurn_frame (s : ServerState) (sid rid nxt : String) (r : Room)
    (hb : lookupAssoc s.rooms rid = some r)
    (hst : r.started = true) (hw : r.winner = none)
    (hto : r.turnOrder = [sid, nxt]) :
    skipTurn s sid rid =
      { state :=
          { rooms := setAssoc s.rooms rid { r with turnOrder := [nxt, sid] },
            pendingTimers := s.pendingTimers,
            nextTimer := s.nextTimer },
        emits := [Emit.turnSkipped rid sid nxt],
        crashed := false } := by
  unfold skipTurn
  rw [hb]
  simp [hst, hto]

/-- C9 witness: Alice skips her first turn of the concrete game. -/
theorem skipTurn_frame_witness :
    skipTurn sActive "AAA" "R1" =
      { state :=
          { rooms := setAssoc sActive.rooms "R1" { someRoom sActive "R1" with turnOrder := ["BBB", "AAA"] },
            pendingTimers := sActive.pendingTimers,
            nextTimer := sActive.nextTimer },
        emits := [Emit.turnSkipped "R1" "AAA" "BBB"],
        crashed := false } :=
  skipTurn_frame sActive "AAA" "R1" "BBB" (someRoom sActive "R1")
    (by decide) (by decide) (by decide) (by decide)

/-- C10: in the guess handler the format check precedes the turn check:
a guess against a started session whose value is not exactly codeLength
digit characters is silently dropped — no state change, no notification —
for every caller, in particular one who is not the active player, who
therefore never receives the NotYourTurn error. -/
theorem guess_format_guard (s : ServerState) (sid rid value : String) (r : Room)
    (hb : lookupAssoc s.rooms rid = some r) (hst : r.started = true)
    (hbad : isDigits value = false ∨ value.length ≠ r.codeLength) :
    guess s sid rid value = { state := s, emits := [], crashed := false } := by
  unfold guess
  rw [hb]
  rcases hbad with hbad | hbad
  · simp [hst, hbad]
  · simp [hst, hbad]

/-- C10 witness: in the concrete Active game the waiting player Bob sends
the short guess "12"; it is dropped with no error notification. -/
theorem guess_format_guard_witness :
    guess sActive "BBB" "R1" "12" = { state := sActive, emits := [], crashed := false } :=
  guess_format_guard sActive "BBB" "R1" "12" (someRoom sActive "R1")
    (by decide) (by decide) (Or.inr (by decide))

theorem clearTurnTimer_lookup_self (s : ServerState) (rid : String) (r : Room)
    (h : lookupAssoc s.rooms rid = some r) :
    ∃ r', lookupAssoc (clearTurnTimer rid s).rooms rid = some r' ∧
      r'.players = r.players ∧ r'.codeLength = r.codeLength ∧ r'.started = r.started ∧
      r'.turnOrder = r.turnOrder ∧ r'.winner = r.winner := by
  unfold clearTurnTimer
  simp only [h]
  cases ht : r.turnTimer with
  | none =>
      simp only [ht]
      exact ⟨r, h, rfl, rfl, rfl, rfl, rfl⟩
  | some h0 =>
      simp only [ht]
      exact ⟨{ r with turnTimer := none }, by simp [lookup_set_self], rfl, rfl, rfl, rfl, rfl⟩

theorem startTurnTimer_lookup_self (s : ServerState) (rid : String) (r : Room)
    (h : lookupAssoc s.rooms rid = some r) :
    ∃ r', lookupAssoc (startTurnTimer rid s).rooms rid = some r' ∧
      r'.players = r.players ∧ r'.codeLength = r.codeLength ∧ r'.started = r.started ∧
      r'.turnOrder = r.turnOrder ∧ r'.winner = r.winner := by
  unfold startTurnTimer
  rw [h]
  exact ⟨{ r with turnTimer := some s.nextTimer }, by simp [lookup_set_self], rfl, rfl, rfl, rfl, rfl⟩

/-- C7 (amended): a well-formed guess by the active player of an Active
session is scored as the number of positions i in [0, codeLength) where
value[i] equals the opponent's secret[i]; the score is broadcast, a full
match records the guesser as winner and finishes the session, and a
partial match hands the turn to the opponent. -/
theorem guess_scoring (s : ServerState) (sid rid value opponentId : String)
    (r : Room) (opp me : PlayerState)
    (hb : lookupAssoc s.rooms rid = some r)
    (hst : r.started = true) (hw : r.winner = none)
    (hto : r.turnOrder = [sid, opponentId])
    (hopp : lookupAssoc r.players opponentId = some opp)
    (hme : lookupAssoc r.players sid = some me)
    (hv : isDigits value = true) (hlv : value.length = r.codeLength) :
    (guess s sid rid value).crashed = false ∧
    (guess s sid rid value).emits.head? =
      some (Emit.guessResult rid sid value (specScore r.codeLength value opp.secret)) ∧
    (specScore r.codeLength value opp.secret = r.codeLength →
      (guess s sid rid value).emits =
        [Emit.guessResult rid sid value (specScore r.codeLength value opp.secret),
         Emit.gameOver rid sid me.name opponentId opp.name] ∧
      ∃ r', lookupAssoc (guess s sid rid value).state.rooms rid = some r' ∧
        r'.winner = some sid ∧ r'.phase = Phase.finished) ∧
    (specScore r.codeLength value opp.secret ≠ r.codeLength →
      (guess s sid rid value).emits =
        [Emit.guessResult rid sid value (specScore r.codeLength value opp.secret),
         Emit.turnChanged rid opponentId] ∧
      ∃ r', lookupAssoc (guess s sid rid value).state.rooms rid = some r' ∧
        r'.winner = none ∧ r'.turnOrder = [opponentId, sid]) := by
  have hidx : jsIndexOf [sid, opponentId] sid = 0 := by
    simp [jsIndexOf]
  have hred :
      guess s sid rid value =
        if specScore r.codeLength value opp.secret = r.codeLength then
          { state := clearTurnTimer rid { s with rooms := setAssoc s.rooms rid { r with winner := some sid } },
            emits := [Emit.guessResult rid sid value (specScore r.codeLength value opp.secret),
                      Emit.gameOver rid sid me.name opponentId opp.name],
            crashed := false }
        else
          { state := startTurnTimer rid { s with rooms := setAssoc s.rooms rid { r with turnOrder := [opponentId, sid] } },
            emits := [Emit.guessResult rid sid value (specScore r.codeLength value opp.secret),
                      Emit.turnChanged rid opponentId],
            crashed := false } := by
    unfold guess
    rw [hb]
    simp [hst, hv, hlv, hto, hidx, hopp, hme, scoreLoop_eq_specScore]
  by_cases hwin : specScore r.codeLength value opp.secret = r.codeLength
  · rw [hred, if_pos hwin]
    refine ⟨rfl, rfl, fun _ => ⟨rfl, ?_⟩, fun h => absurd hwin h⟩
    obtain ⟨r', hr', _, _, _, _, hwr'⟩ :=
      clearTurnTimer_lookup_self { s with rooms := setAssoc s.rooms rid { r with winner := some sid } }
        rid { r with winner := some sid } (by simp [lookup_set_self])
    exact ⟨r', hr', by simp [hwr'], by simp [Room.phase, hwr']⟩
  · rw [hred, if_neg hwin]
    refine ⟨rfl, rfl, fun h => absurd h hwin, fun _ => ⟨rfl, ?_⟩⟩
    obtain ⟨r', hr', _, _, _, htr', hwr'⟩ :=
      startTurnTimer_lookup_self { s with rooms := setAssoc s.rooms rid { r with turnOrder := [opponentId, sid] } }
        rid { r with turnOrder := [opponentId, sid] } (by simp [lookup_set_self])
    exact ⟨r', hr', by simp [hwr', hw], by simp [htr']⟩

/-- C7 witness: in the concrete game (secret "456") Alice's guess "455"
is broadcast with score 2, and her exact guess "456" finishes the
session with her as the recorded winner. -/
theorem guess_scoring_witness :
    (guess sActive "AAA" "R1" "455").emits.head? =
      some (Emit.guessResult "R1" "AAA" "455"
        (specScore (someRoom sActive "R1").codeLength "455" (somePlayer (someRoom sActive "R1") "BBB").secret)) ∧
    ∃ r', lookupAssoc (guess sActive "AAA" "R1" "456").state.rooms "R1" = some r' ∧
      r'.winner = some "AAA" ∧ r'.phase = Phase.finished := by
  have h1 := guess_scoring sActive "AAA" "R1" "455" "BBB" (someRoom sActive "R1")
    (somePlayer (someRoom sActive "R1") "BBB") (somePlayer (someRoom sActive "R1") "AAA")
    (by decide) (by decide) (by decide) (by decide) (by decide) (by decide) (by decide) (by decide)
  have h2 := guess_scoring sActive "AAA" "R1" "456" "BBB" (someRoom sActive "R1")
    (somePlayer (someRoom sActive "R1") "BBB") (somePlayer (someRoom sActive "R1") "AAA")
    (by decide) (by decide) (by decide) (by decide) (by decide) (by decide) (by decide) (by decide)
  exact ⟨h1.2.1, (h2.2.2.1 (by decide)).2⟩

/-- C5 (amended): the silent drops the code actually implements: actions
against an unknown room, setSecret from an unknown participant or with a
bad secret format, a guess before the game started or with a bad value
format, and a skipTurn before the game started or by a caller who is not
turnOrder[0], all leave the whole server state unchanged and emit
nothing.  (setSecret carries no phase guard, and guess/skipTurn are not
guarded against Finished sessions.) -/
theorem silent_drops :
    (∀ s sid rid secret flip, lookupAssoc s.rooms rid = none →
      setSecret s sid rid secret flip = { state := s, emits := [], crashed := false }) ∧
    (∀ s sid rid secret flip r, lookupAssoc s.rooms rid = some r →
      lookupAssoc r.players sid = none →
      setSecret s sid rid secret flip = { state := s, emits := [], crashed := false }) ∧
    (∀ s sid rid secret flip r, lookupAssoc s.rooms rid = some r →
      (secret.length ≠ r.codeLength ∨ isDigits secret = false) →
      setSecret s sid rid secret flip = { state := s, emits := [], crashed := false }) ∧
    (∀ s sid rid value, lookupAssoc s.rooms rid = none →
      guess s sid rid value = { state := s, emits := [], crashed := false }) ∧
    (∀ s sid rid value r, lookupAssoc s.rooms rid = some r → r.started = false →
      guess s sid rid value = { state := s, emits := [], crashed := false }) ∧
    (∀ s sid rid value r, lookupAssoc s.rooms rid = some r →
      (isDigits value = false ∨ value.length ≠ r.codeLength) →
      guess s sid rid value = { state := s, emits := [], crashed := false }) ∧
    (∀ s sid rid, lookupAssoc s.rooms rid = none →
      skipTurn s sid rid = { state := s, emits := [], crashed := false }) ∧
    (∀ s sid rid r, lookupAssoc s.rooms rid = some r →
      (r.started = false ∨ r.turnOrder.get? 0 ≠ some sid) →
      skipTurn s sid rid = { state := s, emits := [], crashed := false }) := by
  refine ⟨?_, ?_, ?_, ?_, ?_, ?_, ?_, ?_⟩
  · intro s sid rid secret flip h
    unfold setSecret
    rw [h]
  · intro s sid rid secret flip r hr h
    unfold setSecret
    rw [hr]
    simp only [h]
  · intro s sid rid secret flip r hr h
    unfold setSecret
    rw [hr]
    cases hp : lookupAssoc r.players sid with
    | none => simp [hp]
    | some p =>
        simp only [hp]
        rcases h with h | h
        · simp [h]
        · simp [h]
  · intro s sid rid value h
    unfold guess
    rw [h]
  · intro s sid rid value r hr h
    unfold guess
    rw [hr]
    simp [h]
  · intro s sid rid value r hr h
    unfold guess
    rw [hr]
    by_cases hs : r.started
    · rcases h with h | h
      · simp [hs, h]
      · simp [hs, h]
    · simp [hs]
  · intro s sid rid h
    unfold skipTurn
    rw [h]
  · intro s sid rid r hr h
    unfold skipTurn
    rw [hr]
    rcases h with h | h
    · simp [h]
    · by_cases hs : r.started
      · have h' : ¬ (r.turnOrder[0]? = some sid) := by simpa using h
        simp [hs, h']
      · simp [hs]

/-- C5 amended witness: in the concrete Active game, a setSecret from the
unknown participant "ZZZ" and a skipTurn from the waiting player Bob are
both dropped with no notification and no state change. -/
theorem silent_drops_witness :
    setSecret sActive "ZZZ" "R1" "123" true = { state := sActive, emits := [], crashed := false } ∧
    skipTurn sActive "BBB" "R1" = { state := sActive, emits := [], crashed := false } :=
  ⟨silent_drops.2.1 sActive "ZZZ" "R1" "123" true (someRoom sActive "R1") (by decide) (by decide),
   silent_drops.2.2.2.2.2.2.2 sActive "BBB" "R1" (someRoom sActive "R1") (by decide)
     (Or.inr (by decide))⟩

theorem setAssoc_setAssoc {α : Type} (l : List (String × α)) (k : String) (v w : α) :
    setAssoc (setAssoc l k v) k w = setAssoc l k w := by
  induction l with
  | nil => simp [setAssoc]
  | cons hd tl ih =>
      obtain ⟨k0, v0⟩ := hd
      by_cases h : k0 = k
      · subst h
        simp [setAssoc]
      · simp [setAssoc, h, ih]

theorem startTurnTimer_rooms_set (t : ServerState) (base : List (String × Room))
    (gid : String) (r1 : Room) (ht : t.rooms = setAssoc base gid r1) :
    ∃ r2, r2.players = r1.players ∧ r2.codeLength = r1.codeLength ∧
      r2.started = r1.started ∧ r2.turnOrder = r1.turnOrder ∧ r2.winner = r1.winner ∧
      (startTurnTimer gid t).rooms = setAssoc base gid r2 := by
  unfold startTurnTimer
  simp only [ht, lookup_set_self]
  exact ⟨{ r1 with turnTimer := some t.nextTimer }, rfl, rfl, rfl, rfl, rfl,
    by simp [setAssoc_setAssoc]⟩

theorem clearTurnTimer_rooms_set (t : ServerState) (base : List (String × Room))
    (gid : String) (r1 : Room) (ht : t.rooms = setAssoc base gid r1) :
    ∃ r2, r2.players = r1.players ∧ r2.codeLength = r1.codeLength ∧
      r2.started = r1.started ∧ r2.turnOrder = r1.turnOrder ∧ r2.winner = r1.winner ∧
      (clearTurnTimer gid t).rooms = setAssoc base gid r2 := by
  unfold clearTurnTimer
  simp only [ht, lookup_set_self]
  cases hh : r1.turnTimer with
  | none => exact ⟨r1, rfl, rfl, rfl, rfl, rfl, ht⟩
  | some h0 =>
      exact ⟨{ r1 with turnTimer := none }, rfl, rfl, rfl, rfl, rfl,
        by simp [setAssoc_setAssoc]⟩

/-- What a handler step can do to the rooms table: leave it alone, or
rewrite one room in a started/winner-monotone way. -/
def RoomsShape (s : ServerState) (rooms' : List (String × Room)) : Prop :=
  rooms' = s.rooms ∨
  ∃ gid r0 r2, lookupAssoc s.rooms gid = some r0 ∧
    (r0.started = true → r2.started = true) ∧
    (r0.winner.isSome = true → r2.winner.isSome = true) ∧
    rooms' = setAssoc s.rooms gid r2

theorem joinRoom_rooms_shape (s : ServerState) (sid name gid : String) :
    RoomsShape s (joinRoom s sid name gid).state.rooms := by
  unfold joinRoom RoomsShape
  cases hl : lookupAssoc s.rooms gid with
  | none => exact Or.inl rfl
  | some r0 =>
      simp only
      split
      · exact Or.inl rfl
      · exact Or.inr ⟨gid, r0, _, hl, by simp, by simp, rfl⟩

theorem setSecret_rooms_shape (s : ServerState) (sid gid secret : String) (flip : Bool) :
    RoomsShape s (setSecret s sid gid secret flip).state.rooms := by
  unfold setSecret RoomsShape
  cases hl : lookupAssoc s.rooms gid with
  | none => exact Or.inl rfl
  | some r0 =>
      simp only
      cases hp : lookupAssoc r0.players sid with
      | none => exact Or.inl rfl
      | some p =>
          simp only
          split
          · exact Or.inl rfl
          · split
            · split
              · rename_i id0 id1 tail heq
                obtain ⟨r2, _, _, h3, _, h5, h6⟩ :=
                  startTurnTimer_rooms_set
                    { rooms := setAssoc s.rooms gid
                        { players := setAssoc r0.players sid { p with secret := secret, ready := true },
                          codeLength := r0.codeLength, started := true,
                          turnOrder := [(if flip then (id0, id1) else (id1, id0)).1,
                                        (if flip then (id0, id1) else (id1, id0)).2],
                          winner := r0.winner, turnTimer := r0.turnTimer },
                      pendingTimers := s.pendingTimers, nextTimer := s.nextTimer }
                    s.rooms gid _ rfl
                exact Or.inr ⟨gid, r0, r2, hl, fun _ => by simp [h3], by simp [h5], h6⟩
              · exact Or.inr ⟨gid, r0, _, hl, by simp, by simp, rfl⟩
            · exact Or.inr ⟨gid, r0, _, hl, by simp, by simp, rfl⟩

theorem guess_rooms_shape (s : ServerState) (sid gid value : String) :
    RoomsShape s (guess s sid gid value).state.rooms := by
  unfold guess RoomsShape
  cases hl : lookupAssoc s.rooms gid with
  | none => exact Or.inl rfl
  | some r0 =>
      simp only
      split
      · exact Or.inl rfl
      · split
        · exact Or.inl rfl
        · split
          · exact Or.inl rfl
          · split
            · exact Or.inl rfl
            · rename_i opponentId hget
              split
              · exact Or.inl rfl
              · rename_i opp hopp
                split
                · split
                  · exact Or.inr ⟨gid, r0, _, hl, by simp, by simp, rfl⟩
                  · obtain ⟨r2, _, _, h3, _, h5, h6⟩ :=
                      clearTurnTimer_rooms_set
                        { rooms := setAssoc s.rooms gid { r0 with winner := some sid },
                          pendingTimers := s.pendingTimers, nextTimer := s.nextTimer }
                        s.rooms gid { r0 with winner := some sid } rfl
                    exact Or.inr ⟨gid, r0, r2, hl, by simp [h3], by simp [h5], h6⟩
                · obtain ⟨r2, _, _, h3, _, h5, h6⟩ :=
                    startTurnTimer_rooms_set
                      { rooms := setAssoc s.rooms gid { r0 with turnOrder := [opponentId, sid] },
                        pendingTimers := s.pendingTimers, nextTimer := s.nextTimer }
                      s.rooms gid { r0 with turnOrder := [opponentId, sid] } rfl
                  exact Or.inr ⟨gid, r0, r2, hl, by simp [h3], by simp [h5], h6⟩

theorem skipTurn_rooms_shape (s : ServerState) (sid gid : String) :
    RoomsShape s (skipTurn s sid gid).state.rooms := by
  unfold skipTurn RoomsShape
  cases hl : lookupAssoc s.rooms gid with
  | none => exact Or.inl rfl
  | some r0 =>
      simp only
      split
      · exact Or.inl rfl
      · split
        · exact Or.inl rfl
        · split
          · exact Or.inr ⟨gid, r0, _, hl, by simp, by simp, rfl⟩
          · exact Or.inl rfl

theorem fireTimer_rooms_shape (s : ServerState) (h : Nat) :
    RoomsShape s (fireTimer s h).state.rooms := by
  unfold fireTimer RoomsShape
  cases hf : s.pendingTimers.find? (fun e => e.1 == h) with
  | none => exact Or.inl rfl
  | some hr =>
      simp only
      cases hl : lookupAssoc s.rooms hr.2 with
      | none => exact Or.inl rfl
      | some r0 =>
          simp only
          split
          · exact Or.inl rfl
          · split
            · rename_i expired next tail heq
              obtain ⟨r2, _, _, h3, _, h5, h6⟩ :=
                startTurnTimer_rooms_set
                  { rooms := setAssoc s.rooms hr.2 { r0 with turnOrder := [next, expired] },
                    pendingTimers := s.pendingTimers.filter (fun e => e.1 != h),
                    nextTimer := s.nextTimer }
                  s.rooms hr.2 { r0 with turnOrder := [next, expired] } rfl
              exact Or.inr ⟨hr.2, r0, r2, hl, by simp [h3], by simp [h5], h6⟩
            · exact Or.inl rfl

theorem mono_of_shape {s : ServerState} {rooms' : List (String × Room)}
    (hshape : RoomsShape s rooms') {rid : String} {r r' : Room}
    (hb : lookupAssoc s.rooms rid = some r)
    (ha : lookupAssoc rooms' rid = some r') :
    (r.started = true → r'.started = true) ∧
    (r.winner.isSome = true → r'.winner.isSome = true) := by
  rcases hshape with h | ⟨gid, r0, r2, hl, h1, h2, h⟩
  · rw [h, hb] at ha
    cases ha
    exact ⟨fun x => x, fun x => x⟩
  · subst h
    by_cases hk : gid = rid
    · subst hk
      rw [hb] at hl
      cases hl
      rw [lookup_set_self] at ha
      cases ha
      exact ⟨h1, h2⟩
    · rw [lookup_set_ne _ _ _ _ hk, hb] at ha
      cases ha
      exact ⟨fun x => x, fun x => x⟩

theorem disconnectRooms_keys_sublist (sid : String) (l : List (String × Room)) :
    ((disconnectRooms sid l).1.map Prod.fst).Sublist (l.map Prod.fst) := by
  induction l with
  | nil => simp [disconnectRooms]
  | cons hd tl ih =>
      obtain ⟨k, rm⟩ := hd
      unfold disconnectRooms
      cases hp : lookupAssoc rm.players sid with
      | none => simpa using List.Sublist.cons₂ k ih
      | some p =>
          simp only
          split
          · simpa using List.Sublist.cons _ ih
          · simpa using List.Sublist.cons₂ k ih


theorem disconnectRooms_lookup (sid : String) (l : List (String × Room))
    (hnd : (l.map Prod.fst).Nodup) (rid : String) (r' : Room)
    (h : lookupAssoc (disconnectRooms sid l).1 rid = some r') :
    ∃ r, lookupAssoc l rid = some r ∧ r'.codeLength = r.codeLength ∧
      r'.started = r.started ∧ r'.turnOrder = r.turnOrder ∧ r'.winner = r.winner ∧
      r'.turnTimer = r.turnTimer := by
  induction l with
  | nil => simp [disconnectRooms, lookupAssoc] at h
  | cons hd tl ih =>
      obtain ⟨k, rm⟩ := hd
      simp only [List.map_cons, List.nodup_cons] at hnd
      obtain ⟨hk_notin, hnd_tl⟩ := hnd
      unfold disconnectRooms at h
      cases hp : lookupAssoc rm.players sid with
      | none =>
          simp only [hp] at h
          by_cases hk : k = rid
          · subst hk
            simp only [lookupAssoc, if_pos rfl] at h ⊢
            injection h with h2
            subst h2
            exact ⟨rm, rfl, rfl, rfl, rfl, rfl, rfl⟩
          · simp only [lookupAssoc, if_neg hk] at h ⊢
            exact ih hnd_tl h
      | some p =>
          simp only [hp] at h
          split at h
          · have hmem : rid ∈ (disconnectRooms sid tl).1.map Prod.fst := mem_of_lookup_some h
            have hmem' : rid ∈ tl.map Prod.fst := (disconnectRooms_keys_sublist sid tl).subset hmem
            have hk : k ≠ rid := fun he => hk_notin (he ▸ hmem')
            obtain ⟨r, hr, hf⟩ := ih hnd_tl h
            exact ⟨r, by simp [lookupAssoc, hk, hr], hf⟩
          · by_cases hk : k = rid
            · subst hk
              simp only [lookupAssoc, if_pos rfl] at h ⊢
              injection h with h2
              subst h2
              exact ⟨rm, rfl, rfl, rfl, rfl, rfl, rfl⟩
            · simp only [lookupAssoc, if_neg hk] at h ⊢
              exact ih hnd_tl h

theorem disconnect_mono (s : ServerState) (sid rid : String) (r r' : Room)
    (hnd : (s.rooms.map Prod.fst).Nodup)
    (hb : lookupAssoc s.rooms rid = some r)
    (ha : lookupAssoc (disconnect s sid).state.rooms rid = some r') :
    r'.started = r.started ∧ r'.winner = r.winner := by
  have ha' : lookupAssoc (disconnectRooms sid s.rooms).1 rid = some r' := ha
  obtain ⟨r0, hb0, _, h2, _, h4, _⟩ := disconnectRooms_lookup sid s.rooms hnd rid r' ha'
  rw [hb] at hb0
  cases hb0
  exact ⟨h2, h4⟩

theorem phaseIdx_le_of_mono {r r' : Room} (h1 : r.started = true → r'.started = true)
    (h2 : r.winner.isSome = true → r'.winner.isSome = true) :
    phaseIdx r.phase ≤ phaseIdx r'.phase := by
  by_cases hw : r.winner.isSome = true
  · have hw' := h2 hw
    have e1 : r.phase = Phase.finished := by simp [Room.phase, hw]
    have e2 : r'.phase = Phase.finished := by simp [Room.phase, hw']
    simp [e1, e2]
  · by_cases hs : r.started = true
    · have hs' := h1 hs
      have e1 : r.phase = Phase.active := by simp [Room.phase, hw, hs]
      by_cases hw2 : r'.winner.isSome = true
      · have e2 : r'.phase = Phase.finished := by simp [Room.phase, hw2]
        rw [e1, e2]
        simp [phaseIdx]
      · have e2 : r'.phase = Phase.active := by simp [Room.phase, hw2, hs']
        rw [e1, e2]
    · have e1 : r.phase = Phase.lobby := by simp [Room.phase, hw, hs]
      rw [e1]
      exact Nat.zero_le _

/-- C8: phase monotonicity.  For any server state whose rooms table is
well-formed (keys unique, as JS object keys are) and any inbound event
honouring the environment guarantee that createRoom receives a fresh
room id, a session present before and after the step never resets its
started flag, never clears its recorded winner, and its derived phase
only moves forward along Lobby, Active, Finished. -/
theorem phase_monotone (s : ServerState) (e : Event)
    (hok : EventOK s e) (hnd : (s.rooms.map Prod.fst).Nodup)
    (rid : String) (r r' : Room)
    (hb : lookupAssoc s.rooms rid = some r)
    (ha : lookupAssoc (stepEv s e).state.rooms rid = some r') :
    (r.started = true → r'.started = true) ∧
    (r.winner.isSome = true → r'.winner.isSome = true) ∧
    phaseIdx r.phase ≤ phaseIdx r'.phase := by
  have hmono : (r.started = true → r'.started = true) ∧
      (r.winner.isSome = true → r'.winner.isSome = true) := by
    cases e with
    | createRoom sid n cl nrid =>
        have hfresh : lookupAssoc s.rooms nrid = none := hok
        unfold stepEv createRoom at ha
        by_cases hk : nrid = rid
        · subst hk
          rw [hfresh] at hb
          exact absurd hb (by simp)
        · rw [show ((({ s with rooms := setAssoc s.rooms nrid _ } : ServerState)).rooms) = setAssoc s.rooms nrid _ from rfl] at ha
          rw [lookup_set_ne _ _ _ _ hk, hb] at ha
          cases ha
          exact ⟨fun x => x, fun x => x⟩
    | joinRoom sid n gid => exact mono_of_shape (joinRoom_rooms_shape s sid n gid) hb ha
    | setSecret sid gid sec flip => exact mono_of_shape (setSecret_rooms_shape s sid gid sec flip) hb ha
    | guess sid gid v => exact mono_of_shape (guess_rooms_shape s sid gid v) hb ha
    | skipTurn sid gid => exact mono_of_shape (skipTurn_rooms_shape s sid gid) hb ha
    | timerFire h => exact mono_of_shape (fireTimer_rooms_shape s h) hb ha
    | disconnect sid =>
        obtain ⟨h1, h2⟩ := disconnect_mono s sid rid r r' hnd hb ha
        exact ⟨fun x => h1 ▸ x, fun x => by rw [h2]; exact x⟩
  exact ⟨hmono.1, hmono.2, phaseIdx_le_of_mono hmono.1 hmono.2⟩

/-- C8 witness: in the concrete game, Alice's winning guess moves room
"R1" from Active to Finished, and the monotonicity theorem applies to
that step. -/
theorem phase_monotone_witness :
    ((someRoom sActive "R1").started = true → (someRoom sWon "R1").started = true) ∧
    ((someRoom sActive "R1").winner.isSome = true → (someRoom sWon "R1").winner.isSome = true) ∧
    phaseIdx (someRoom sActive "R1").phase ≤ phaseIdx (someRoom sWon "R1").phase :=
  phase_monotone sActive (Event.guess "AAA" "R1" "456") trivial (by decide) "R1"
    (someRoom sActive "R1") (someRoom sWon "R1") (by decide) (by decide)
